import Mathlib

/-!
Verification of the SMALL-LABS <-> table conversion core of biteen-utilities
(`src/biteen_io.py`): `sl_to_df`, `df_to_sl`, `df_to_so`.

Modelling conventions (shallow embedding):
- A numeric cell is `Val := Option ℚ`: `none` models NaN (as numpy equality
  semantics require: NaN compares unequal to everything, including itself),
  `some q` models an ordinary float, with exact rational arithmetic in place
  of IEEE floats.
- A 1-D numpy array is `Arr := List Val`; a 2-D array is `Mat := List Arr`
  (list of rows, so `m[i, :]` is `m.get? i`).
- A pandas DataFrame is an ordered association list of named columns; the
  default RangeIndex 0..N-1 is left implicit (`data.index.values` is modelled
  as `List.range`).
- Fallible Python code (KeyError / IndexError / ValueError / NameError) is
  modelled with `Except String`; distinct failure points that can never be
  observed separately are collapsed into one error result.
-/

/- Rational arithmetic must evaluate on concrete inputs, so the checked
witnesses below can run the translated code; these operations are
`irreducible` upstream for unification performance only. -/
attribute [local semireducible] Rat.mul Rat.add Rat.sub Rat.inv

/-- A pandas/numpy cell: `none` is NaN, `some q` an ordinary numeric value. -/
abbrev Val := Option ℚ

/-- A 1-D numpy array of cells. -/
abbrev Arr := List Val

/-- A 2-D numpy array as a list of rows: `m[i, :]` is `m.get? i`. -/
abbrev Mat := List Arr

/-- Numpy elementwise equality on cells: NaN (`none`) is unequal to
everything, itself included. -/
def beqVal : Val → Val → Bool
  | some a, some b => decide (a = b)
  | _, _ => false

/-- How a numpy boolean lands in a numeric cell: True is 1.0, False is 0.0. -/
def boolVal (b : Bool) : Val := some (if b then 1 else 0)

/-- `np.isin(xs, ys)`: elementwise membership test of `xs` in `ys`. -/
def isin (xs ys : Arr) : List Bool := xs.map (fun x => ys.any (fun y => beqVal x y))

/-- Number of `true` entries of a boolean mask (`mask.sum()` in numpy). -/
def countTrue : List Bool → ℕ
  | [] => 0
  | true :: bs => countTrue bs + 1
  | false :: bs => countTrue bs

/-- Boolean-mask selection `xs[mask]`: keep entries at `true` positions, in order. -/
def maskSelect {α : Type} : List Bool → List α → List α
  | true :: bs, x :: xs => x :: maskSelect bs xs
  | false :: bs, _ :: xs => maskSelect bs xs
  | _, _ => []

/-- Boolean-mask positional assignment `xs[mask] = vs`: the k-th `true`
position of `mask` receives `vs[k]`; other positions keep their value. -/
def maskFill {α : Type} : List α → List Bool → List α → List α
  | [], _, _ => []
  | c :: cs, [], _ => c :: cs
  | c :: cs, b :: bs, vs =>
    if b then vs.headD c :: maskFill cs bs vs.tail else c :: maskFill cs bs vs

/-- All-`some` check on an array; returns the underlying rationals.
Used to model the fact that a NaN among track ids makes the Python code fail
(`np.arange` with a NaN bound raises). -/
def allSome : Arr → Option (List ℚ)
  | [] => some []
  | none :: _ => none
  | some q :: rest => (allSome rest).map (fun l => q :: l)

/-- `arr.max()` as used at biteen_io.py:224, fused with the downstream
failure modes of lines 224-226: empty array (`max` raises) and a NaN maximum
(`np.arange` with a NaN bound raises at line 226). In all non-error runs both
model and code agree on the maximum. -/
def arrMax (a : Arr) : Except String ℚ :=
  match allSome a with
  | none => .error "ValueError: arange with nan bound"
  | some [] => .error "ValueError: zero-size array reduction"
  | some (q :: qs) => .ok (qs.foldl max q)

/-- Insert a value into an ascending list, keeping it ascending. -/
def insSorted (q : ℚ) : List ℚ → List ℚ
  | [] => [q]
  | x :: xs => if q ≤ x then q :: x :: xs else x :: insSorted q xs

/-- Insertion sort (ascending). -/
def sortAsc : List ℚ → List ℚ
  | [] => []
  | x :: xs => insSorted x (sortAsc xs)

/-- The sorted distinct numeric values of an array: the non-NaN part of
`np.unique`. -/
def uniqueNumeric (a : Arr) : List ℚ := sortAsc (a.filterMap id).dedup

/-- `np.unique`: the distinct values in ascending order. NaN sorts above
every number and, when present, is retained — once, at the end (numpy
deduplicates NaNs since 1.21; under any earlier multi-NaN behaviour the
observations below are the same, since selecting with `== nan` matches
nothing either way). -/
def uniqueSorted (a : Arr) : List Val :=
  (uniqueNumeric a).map some ++ (if (none : Val) ∈ a then [(none : Val)] else [])

/-- `astype('int')` on one cell: C-style truncation toward zero. The NaN case
is undefined behaviour in numpy (platform junk); it is given the junk value 0
here, and for that reason every `df_to_so` theorem below carries a NaN-free
hypothesis on the frame column. -/
def truncVal (v : Val) : ℤ :=
  match v with
  | some q => Int.tdiv q.num (q.den : ℤ)
  | none => 0

/-- A pandas DataFrame: ordered named columns over an implicit 0-based range
index. -/
structure DataFrame where
  cols : List (String × Arr)
deriving DecidableEq

/-- Decidable equality of fallible results, so that concrete runs of the
translated functions can be checked by `decide`. -/
instance {ε α : Type} [DecidableEq ε] [DecidableEq α] : DecidableEq (Except ε α) :=
  fun x y =>
    match x, y with
    | .error a, .error b =>
      if h : a = b then .isTrue (by rw [h]) else .isFalse (fun he => h (Except.error.inj he))
    | .ok a, .ok b =>
      if h : a = b then .isTrue (by rw [h]) else .isFalse (fun he => h (Except.ok.inj he))
    | .error _, .ok _ => .isFalse (fun he => Except.noConfusion he)
    | .ok _, .error _ => .isFalse (fun he => Except.noConfusion he)

/-- Number of rows (length of the index); for the well-formed frames built by
the translated code every column has this length. -/
def dfNRows (df : DataFrame) : ℕ :=
  match df.cols with
  | [] => 0
  | c :: _ => c.2.length

/-- `df[k]`: the (first) column named `k`, if any. -/
def dfGet (df : DataFrame) (k : String) : Option Arr :=
  (df.cols.find? (fun kv => kv.1 == k)).map (fun kv => kv.2)

/-- `k in df.columns`. -/
def dfHasCol (df : DataFrame) (k : String) : Bool :=
  df.cols.any (fun kv => kv.1 == k)

/-- `df[k]` where the caller has ensured the column exists. -/
def colD (df : DataFrame) (k : String) : Arr := (dfGet df k).getD []

/-- Replace every column named `k` by `v`, keeping positions. -/
def replaceCol : List (String × Arr) → String → Arr → List (String × Arr)
  | [], _, _ => []
  | kv :: rest, k, v =>
    if kv.1 == k then (k, v) :: replaceCol rest k v else kv :: replaceCol rest k v

/-- `df[k] = v` without the pandas length check: replace in place if the
column exists, else append it at the end. -/
def setColList : List (String × Arr) → String → Arr → List (String × Arr)
  | [], k, v => [(k, v)]
  | kv :: rest, k, v =>
    if kv.1 == k then (k, v) :: replaceCol rest k v else kv :: setColList rest k v

/-- Unchecked column assignment. -/
def dfSetU (df : DataFrame) (k : String) (v : Arr) : DataFrame :=
  ⟨setColList df.cols k v⟩

/-- `df[k] = v` with the pandas length check: assigning an array whose length
differs from the index length raises ValueError. -/
def dfSet (df : DataFrame) (k : String) (v : Arr) : Except String DataFrame :=
  if df.cols.isEmpty ∨ v.length = dfNRows df then .ok (dfSetU df k v)
  else .error "ValueError: Length of values does not match length of index"

/-- Apply `f` to the values of every column named `k`. -/
def mapColList (f : Arr → Arr) : List (String × Arr) → String → List (String × Arr)
  | [], _ => []
  | kv :: rest, k =>
    if kv.1 == k then (kv.1, f kv.2) :: mapColList f rest k
    else kv :: mapColList f rest k

/-- Apply `f` to every column named `k`. -/
def mapCol (df : DataFrame) (k : String) (f : Arr → Arr) : DataFrame :=
  ⟨mapColList f df.cols k⟩

/-- `df.loc[mask, k] = vs`: positional assignment of `vs` to the rows of
column `k` selected by the boolean mask. -/
def dfLocSet (df : DataFrame) (k : String) (mask : List Bool) (vs : Arr) : DataFrame :=
  mapCol df k (fun c => maskFill c mask vs)

/-- A SMALL-LABS `.mat` object as read with h5py (biteen_io.py docstring):
optional top-level entries, each a 2-D dataset; `fits` is a group of named
1×N datasets. -/
structure SlObject where
  fits : Option (List (String × Mat))
  guesses : Option Mat
  roinum : Option Mat
  trk_filt : Option Mat
  tracks : Option Mat

/-- `dataset[0, :]`: first row of a 2-D dataset (IndexError when absent). -/
def row0 (m : Mat) : Except String Arr :=
  match m with
  | [] => .error "IndexError: row 0"
  | r :: _ => .ok r

/-- `{key: sl_object['fits'][key][0,:] for key in ...}` (biteen_io.py:209). -/
def fitsRow0 : List (String × Mat) → Except String (List (String × Arr))
  | [] => .ok []
  | (k, m) :: rest =>
    match row0 m, fitsRow0 rest with
    | .ok r, .ok tail => .ok ((k, r) :: tail)
    | .error e, _ => .error e
    | _, .error e => .error e

/-- `pd.DataFrame(data=...)`: the constructor raises when the supplied
columns do not all have one common length. -/
def mkDF (cols : List (String × Arr)) : Except String DataFrame :=
  match cols with
  | [] => .ok ⟨[]⟩
  | c :: rest =>
    if rest.all (fun kv => kv.2.length == c.2.length) then .ok ⟨c :: rest⟩
    else .error "ValueError: All arrays must be of the same length"

/-- The `guesses` branch of `sl_to_df` (biteen_io.py:210-215). -/
def guessesDF (o : SlObject) (g : Mat) : Except String DataFrame :=
  match g.get? 0, g.get? 1, g.get? 2 with
  | some f, some r, some c =>
    (match mkDF [("frame", f), ("row", r), ("col", c)] with
     | .error e => .error e
     | .ok df =>
       match o.roinum with
       | some rn =>
         (match row0 rn with
          | .error e => .error e
          | .ok rarr => dfSet df "roinum" rarr)
       | none => .ok df)
  | _, _, _ => .error "IndexError: guesses rows"

/-- Lines 208-215 of biteen_io.py: build the base frame from `fits`, else
from `guesses`; with neither, the later uses of `df` raise (NameError). -/
def baseStep (o : SlObject) : Except String DataFrame :=
  match o.fits with
  | some f =>
    (match fitsRow0 f with
     | .error e => .error e
     | .ok cols => mkDF cols)
  | none =>
    match o.guesses with
    | some g => guessesDF o g
    | none => .error "NameError: name df is not defined"

/-- Lines 217-218: attach the `trk_filt` column when present. -/
def trkFiltStep (o : SlObject) (df : DataFrame) : Except String DataFrame :=
  match o.trk_filt with
  | some t =>
    (match row0 t with
     | .error e => .error e
     | .ok arr => dfSet df "trk_filt" arr)
  | none => .ok df

/-- Lines 220-226: the `tracks` branch of `sl_to_df`.
`df['tracked'] = np.isin(df['molid'], tracks[5,:])`;
`df['track_id'] = np.nan`;
`df.loc[df['tracked']==True, 'track_id'] = tracks[3,:]` (positional, with the
pandas length check);
synthesize `np.arange(max+1, max+n_nottracked+1)` for the untracked rows. -/
def tracksStep (df : DataFrame) (t : Mat) : Except String DataFrame :=
  match dfGet df "molid" with
  | none => .error "KeyError: molid"
  | some molid =>
    match t.get? 5 with
    | none => .error "IndexError: tracks row 5"
    | some row5 =>
      match dfSet df "tracked" ((isin molid row5).map boolVal) with
      | .error e => .error e
      | .ok df1 =>
        let df2 := dfSetU df1 "track_id" (List.replicate (dfNRows df1) (none : Val))
        let tcol := (dfGet df2 "tracked").getD []
        let maskT := tcol.map (fun v => beqVal v (some 1))
        match t.get? 3 with
        | none => .error "IndexError: tracks row 3"
        | some row3 =>
          if row3.length = countTrue maskT then
            let df3 := dfLocSet df2 "track_id" maskT row3
            match arrMax row3 with
            | .error e => .error e
            | .ok mx =>
              let maskF := tcol.map (fun v => beqVal v (some 0))
              let synth := (List.range (countTrue maskF)).map
                (fun k : ℕ => (some (mx + 1 + (k : ℚ)) : Val))
              .ok (dfLocSet df3 "track_id" maskF synth)
          else .error "ValueError: cannot set using a list-like indexer"

/-- `sl_to_df` (biteen_io.py:196-228): SMALL-LABS object to DataFrame. -/
def sl_to_df (o : SlObject) : Except String DataFrame :=
  match baseStep o with
  | .error e => .error e
  | .ok df0 =>
    match trkFiltStep o df0 with
    | .error e => .error e
    | .ok df1 =>
      match o.tracks with
      | some t => tracksStep df1 t
      | none => .ok df1

/-- The in-memory SMALL-LABS-style dict built by `df_to_sl`: `fits` maps each
column name to its 1-D value array; `tracks`, when present, is the N×6 numpy
matrix of line 338 (one row per localization). -/
structure SlDict where
  fits : List (String × Arr)
  tracks : Option Mat

/-- Columns required for `df_to_sl` to emit `tracks` (biteen_io.py:337). -/
def requiredCols : List String := ["frame", "row", "col", "track_id", "roinum"]

/-- `df.rename(columns=mp)`: returns a copy with matching names replaced. -/
def dfRename (df : DataFrame) (mp : List (String × String)) : DataFrame :=
  ⟨df.cols.map (fun kv =>
    (match mp.find? (fun p => p.1 == kv.1) with
     | some p => p.2
     | none => kv.1, kv.2))⟩

/-- Lines 327-330: apply the optional column rename, else alias the input. -/
def applyMapper (df : DataFrame) (m : Option (List (String × String))) : DataFrame :=
  match m with
  | some mp => dfRename df mp
  | none => df

/-- Lines 338-347: `tracks = np.zeros([len(data), 6])` filled column by
column; `molid` comes from the `molid` column when present, else from the
range index. -/
def buildTracks (data : DataFrame) : Mat :=
  let n := dfNRows data
  let molid : Arr :=
    if dfHasCol data "molid" then colD data "molid"
    else (List.range n).map (fun i : ℕ => (some (i : ℚ) : Val))
  (List.range n).map (fun i =>
    [(colD data "frame").getD i (some 0), (colD data "row").getD i (some 0),
     (colD data "col").getD i (some 0), (colD data "track_id").getD i (some 0),
     (colD data "roinum").getD i (some 0), molid.getD i (some 0)])

/-- `df_to_sl` (biteen_io.py:304-350). The second component of the result is
the caller's table as it stands after the call (the body only reads from it),
making the claimed absence of mutation expressible. -/
def df_to_sl (df : DataFrame) (col_mapper : Option (List (String × String))) :
    SlDict × DataFrame :=
  let data := applyMapper df col_mapper
  let fits := data.cols
  let tracks : Option Mat :=
    if requiredCols.all (fun c => dfHasCol data c) then some (buildTracks data)
    else none
  ({ fits := fits, tracks := tracks }, df)

/-- Column `j` of a row-major matrix. -/
def matColumn (m : Mat) (j : ℕ) : Arr := m.map (fun r => r.getD j none)

/-- Modelled from the spec: the legacy-format persistence collaborator of §6
(`save_sl_fits` / h5py reading, both outside src's own logic). Per §4.2 each
`fits` field is stored and read back as a 1×N dataset, and per §3 the stored
`tracks` matrix reads back in the 6-row orientation: N×6 written through the
MATLAB v7.3 container is seen transposed by h5py. -/
def loadMat (d : SlDict) : SlObject :=
  { fits := some (d.fits.map (fun kv => (kv.1, ([kv.2] : Mat))))
    guesses := none
    roinum := none
    trk_filt := none
    tracks := d.tracks.map (fun m => (List.range 6).map (fun j => matColumn m j)) }

/-- `df[k]` with the pandas KeyError. -/
def dfGetE (df : DataFrame) (k : String) : Except String Arr :=
  match dfGet df k with
  | some a => .ok a
  | none => .error ("KeyError: " ++ k)

/-- One Spot-On track group, the record `('xy', 'TimeStamp', 'Frame')` of the
output dtype: scaled coordinate pairs, timestamps, integer frames. -/
structure SoGroup where
  xy : List (Val × Val)
  timeStamp : List ℚ
  frame : List ℤ
deriving DecidableEq

/-- `df_to_so` (biteen_io.py:401-433): group a localization table by track id
into Spot-On tuples. The two coordinate columns are passed separately
(`coord_cols=[c1, c2]` in the source). A NaN among the track ids is retained
by `np.unique` but `track_ids == ti` then selects nothing (NaN is unequal to
itself), so its group is empty and NaN rows appear in no group. -/
def df_to_so (df : DataFrame) (frame_col c1 c2 track_col : String)
    (pixel_size t_frame : ℚ) : Except String (List SoGroup) :=
  match dfGetE df frame_col, dfGetE df c1, dfGetE df c2, dfGetE df track_col with
  | .ok fr, .ok xc, .ok yc, .ok tr =>
    let xy := (xc.zip yc).map
      (fun p => (p.1.map (fun q => q * pixel_size), p.2.map (fun q => q * pixel_size)))
    let frames := fr.map truncVal
    let times := frames.map (fun f : ℤ => (f : ℚ) * t_frame)
    .ok ((uniqueSorted tr).map (fun ti =>
      let mask := tr.map (fun v => beqVal v ti)
      ⟨maskSelect mask xy, maskSelect mask times, maskSelect mask frames⟩))
  | .error e, _, _, _ => .error e
  | _, .error e, _, _ => .error e
  | _, _, .error e, _ => .error e
  | _, _, _, .error e => .error e

/-! ### Derived observers and example data used by the verification -/

/-- Rows flagged as tracked in a `sl_to_df` output (`df['tracked'] == True`). -/
def trackedMask (df : DataFrame) : List Bool :=
  (colD df "tracked").map (fun v => beqVal v (some 1))

/-- Rows flagged as untracked in a `sl_to_df` output (`df['tracked'] == False`). -/
def untrackedMask (df : DataFrame) : List Bool :=
  (colD df "tracked").map (fun v => beqVal v (some 0))

/-- The `track_id` values of the tracked rows, in row order. -/
def trackedIds (df : DataFrame) : Arr := maskSelect (trackedMask df) (colD df "track_id")

/-- The `track_id` values synthesized for the untracked rows, in row order. -/
def synthIds (df : DataFrame) : Arr := maskSelect (untrackedMask df) (colD df "track_id")

/-- A one-row table with exactly the required column set
`{frame, row, col, track_id, roinum}`. -/
def exDfRequired : DataFrame :=
  ⟨[("frame", [some 0]), ("row", [some 1]), ("col", [some 2]),
    ("track_id", [some 3]), ("roinum", [some 4])]⟩

/-- The same one-row table with a `molid` column added. -/
def exDfRequiredMolid : DataFrame :=
  ⟨[("frame", [some 0]), ("row", [some 1]), ("col", [some 2]),
    ("track_id", [some 3]), ("roinum", [some 4]), ("molid", [some 9])]⟩

/-- `fits` group holding only a `molid` field (1×3 dataset, molecule ids 1,2,3). -/
def exFitsMolid : List (String × Mat) := [("molid", [[some 1, some 2, some 3]])]

/-- A 6×2 tracks matrix: track ids 5 and 7 (4th row) for molecule ids 3 and 1
(6th row); molecule 2 is untracked. -/
def exTracksMat : Mat :=
  [[some 0, some 0], [some 0, some 0], [some 0, some 0],
   [some 5, some 7], [some 0, some 0], [some 3, some 1]]

/-- Legacy object with `fits` and `tracks`: molecules 1,2,3 of which 1 and 3
are tracked. -/
def exObjTracks : SlObject :=
  { fits := some exFitsMolid, guesses := none, roinum := none,
    trk_filt := none, tracks := some exTracksMat }

/-- The table `sl_to_df` produces for `exObjTracks` (checked by `decide`):
molecule 2 is untracked and receives the synthesized id max+1 = 8. -/
def exObjTracksOut : DataFrame :=
  ⟨[("molid", [some 1, some 2, some 3]),
    ("tracked", [some 1, some 0, some 1]),
    ("track_id", [some 5, some 8, some 7])]⟩

/-- `fits` group with molecule ids 10 and 20. -/
def exFitsJoin : List (String × Mat) := [("molid", [[some 10, some 20]])]

/-- Tracks matrix whose first column carries (track id 100, molecule id 20)
and second column (track id 200, molecule id 10). -/
def exTracksJoin : Mat :=
  [[some 0, some 0], [some 0, some 0], [some 0, some 0],
   [some 100, some 200], [some 0, some 0], [some 20, some 10]]

/-- The same tracks matrix with its two columns swapped: column order differs,
the (track id, molecule id) pairing is identical. -/
def exTracksJoinPerm : Mat :=
  [[some 0, some 0], [some 0, some 0], [some 0, some 0],
   [some 200, some 100], [some 0, some 0], [some 10, some 20]]

/-- Legacy object used to probe the molecule-id-join claim. -/
def exObjJoin : SlObject :=
  { fits := some exFitsJoin, guesses := none, roinum := none,
    trk_filt := none, tracks := some exTracksJoin }

/-- The column-permuted variant of `exObjJoin`. -/
def exObjJoinPerm : SlObject :=
  { fits := some exFitsJoin, guesses := none, roinum := none,
    trk_filt := none, tracks := some exTracksJoinPerm }

/-- The table `sl_to_df` produces for `exObjJoin` (checked by `decide`). -/
def exObjJoinOut : DataFrame :=
  ⟨[("molid", [some 10, some 20]),
    ("tracked", [some 1, some 1]),
    ("track_id", [some 100, some 200])]⟩

/-- The partition example of the spec: track ids [1,1,2,3,3,3] over frames
[0,1,0,5,6,7]. -/
def exDfPartition : DataFrame :=
  ⟨[("track_id", [some 1, some 1, some 2, some 3, some 3, some 3]),
    ("frame", [some 0, some 1, some 0, some 5, some 6, some 7]),
    ("x", [some 0, some 0, some 0, some 0, some 0, some 0]),
    ("y", [some 0, some 0, some 0, some 0, some 0, some 0])]⟩

/-- The track column of `exDfPartition`. -/
def exTrackCol : Arr := [some 1, some 1, some 2, some 3, some 3, some 3]

/-- A zero-row table with the partition columns. -/
def exDfPartitionEmpty : DataFrame :=
  ⟨[("track_id", []), ("frame", []), ("x", []), ("y", [])]⟩

/-- A two-row table whose second row has a NaN track id. -/
def exDfPartitionNaN : DataFrame :=
  ⟨[("track_id", [some 1, none]),
    ("frame", [some 0, some 1]),
    ("x", [some 0, some 0]),
    ("y", [some 0, some 0])]⟩

/-- A table missing most of the required column set. -/
def exDfNoTracks : DataFrame := ⟨[("frame", [some 0])]⟩

/-- A legacy object with no entries at all. -/
def exObjBare : SlObject :=
  { fits := none, guesses := none, roinum := none, trk_filt := none, tracks := none }

/-! ### Generic lemmas about the array operations -/

/-- A NaN-free array. -/
def noNaN (a : Arr) : Prop := ∀ v ∈ a, v ≠ none

instance (a : Arr) : Decidable (noNaN a) :=
  List.decidableBAll (fun v => v ≠ none) a

theorem maskFill_length {α : Type} :
    ∀ (cur : List α) (mask : List Bool) (vs : List α),
      (maskFill cur mask vs).length = cur.length
  | [], _, _ => rfl
  | _ :: _, [], _ => rfl
  | c :: cs, b :: bs, vs => by
    cases b
    · simpa [maskFill] using maskFill_length cs bs vs
    · simpa [maskFill] using maskFill_length cs bs vs.tail

theorem countTrue_true_cons (bs : List Bool) : countTrue (true :: bs) = countTrue bs + 1 := rfl

theorem countTrue_false_cons (bs : List Bool) : countTrue (false :: bs) = countTrue bs := rfl

theorem countTrue_allTrue {m : List Bool} (h : ∀ b ∈ m, b = true) :
    countTrue m = m.length := by
  induction m with
  | nil => rfl
  | cons b bs ih =>
    have hb : b = true := h b (List.mem_cons_self b bs)
    subst hb
    have := ih (fun x hx => h x (List.mem_cons_of_mem _ hx))
    simp [countTrue_true_cons, this]

theorem countTrue_allFalse {m : List Bool} (h : ∀ b ∈ m, b = false) :
    countTrue m = 0 := by
  induction m with
  | nil => rfl
  | cons b bs ih =>
    have hb : b = false := h b (List.mem_cons_self b bs)
    subst hb
    exact (countTrue_false_cons bs) ▸ ih (fun x hx => h x (List.mem_cons_of_mem _ hx))

theorem maskSelect_maskFill {α : Type} :
    ∀ (cur : List α) (mask : List Bool) (vs : List α),
      cur.length = mask.length → vs.length = countTrue mask →
      maskSelect mask (maskFill cur mask vs) = vs
  | [], [], vs, _, hv => by
    have hvs : vs = [] := List.length_eq_zero.mp (by simpa [countTrue] using hv)
    subst hvs
    rfl
  | [], _ :: _, _, hc, _ => by simp at hc
  | _ :: _, [], _, hc, _ => by simp at hc
  | c :: cs, true :: bs, [], hc, hv => by
    rw [countTrue_true_cons] at hv
    simp only [List.length_nil] at hv
    omega
  | c :: cs, true :: bs, v :: vs', hc, hv => by
    rw [countTrue_true_cons] at hv
    simp only [List.length_cons] at hv
    have hrec := maskSelect_maskFill cs bs vs' (by simpa using hc) (by omega)
    simp [maskFill, maskSelect, hrec]
  | c :: cs, false :: bs, vs, hc, hv => by
    rw [countTrue_false_cons] at hv
    have hrec := maskSelect_maskFill cs bs vs (by simpa using hc) hv
    simp [maskFill, maskSelect, hrec]

theorem maskSelect_not_maskFill {α : Type} :
    ∀ (cur : List α) (mask : List Bool) (vs : List α),
      cur.length = mask.length →
      maskSelect (mask.map not) (maskFill cur mask vs) = maskSelect (mask.map not) cur
  | [], [], _, _ => rfl
  | [], _ :: _, _, hc => by simp at hc
  | _ :: _, [], _, hc => by simp at hc
  | c :: cs, true :: bs, vs, hc => by
    have hrec := maskSelect_not_maskFill cs bs vs.tail (by simpa using hc)
    simp [maskFill, maskSelect, hrec]
  | c :: cs, false :: bs, vs, hc => by
    have hrec := maskSelect_not_maskFill cs bs vs (by simpa using hc)
    simp [maskFill, maskSelect, hrec]

theorem maskSelect_maskFill_not {α : Type} :
    ∀ (cur : List α) (mask : List Bool) (vs : List α),
      cur.length = mask.length →
      maskSelect mask (maskFill cur (mask.map not) vs) = maskSelect mask cur
  | [], [], _, _ => rfl
  | [], _ :: _, _, hc => by simp at hc
  | _ :: _, [], _, hc => by simp at hc
  | c :: cs, true :: bs, vs, hc => by
    have hrec := maskSelect_maskFill_not cs bs vs (by simpa using hc)
    simp [maskFill, maskSelect, hrec]
  | c :: cs, false :: bs, vs, hc => by
    have hrec := maskSelect_maskFill_not cs bs vs.tail (by simpa using hc)
    simp [maskFill, maskSelect, hrec]

theorem maskFill_get_false {α : Type} :
    ∀ (cur : List α) (mask : List Bool) (vs : List α) (i : ℕ),
      mask[i]? = some false →
      (maskFill cur mask vs)[i]? = cur[i]?
  | [], _, _, _, _ => by simp [maskFill]
  | _ :: _, [], _, i, h => by simp at h
  | c :: cs, b :: bs, vs, 0, h => by
    have hb : b = false := by simpa using h
    subst hb
    simp [maskFill]
  | c :: cs, b :: bs, vs, i + 1, h => by
    have h' : bs[i]? = some false := by simpa using h
    cases b
    · simpa [maskFill] using maskFill_get_false cs bs vs i h'
    · simpa [maskFill] using maskFill_get_false cs bs vs.tail i h'

theorem maskFill_get_true {α : Type} :
    ∀ (cur : List α) (mask : List Bool) (vs : List α) (i : ℕ),
      mask[i]? = some true → cur.length = mask.length →
      countTrue mask ≤ vs.length →
      ∃ v, (maskFill cur mask vs)[i]? = some v ∧ v ∈ vs
  | [], mask, vs, i, h, hc, _ => by
    exfalso
    have hm : mask = [] := List.length_eq_zero.mp (by simpa using hc.symm)
    subst hm
    simp at h
  | _ :: _, [], vs, i, h, _, _ => by simp at h
  | c :: cs, b :: bs, vs, 0, h, hc, hv => by
    have hb : b = true := by simpa using h
    subst hb
    match vs with
    | [] =>
      rw [countTrue_true_cons] at hv
      simp only [List.length_nil] at hv
      omega
    | v :: vs' => exact ⟨v, by simp [maskFill], by simp⟩
  | c :: cs, b :: bs, vs, i + 1, h, hc, hv => by
    have h' : bs[i]? = some true := by simpa using h
    have hc' : cs.length = bs.length := by simpa using hc
    cases b
    · rw [countTrue_false_cons] at hv
      obtain ⟨w, hw, hm⟩ := maskFill_get_true cs bs vs i h' hc' hv
      exact ⟨w, by simpa [maskFill] using hw, hm⟩
    · match vs with
      | [] =>
        rw [countTrue_true_cons] at hv
        simp only [List.length_nil] at hv
        omega
      | v :: vs' =>
        rw [countTrue_true_cons] at hv
        simp only [List.length_cons] at hv
        obtain ⟨w, hw, hm⟩ := maskFill_get_true cs bs vs' i h' hc' (by omega)
        exact ⟨w, by simpa [maskFill] using hw, by simp [hm]⟩

theorem maskFill_allTrue {α : Type} :
    ∀ (cur : List α) (mask : List Bool) (vs : List α),
      (∀ b ∈ mask, b = true) → cur.length = mask.length → vs.length = mask.length →
      maskFill cur mask vs = vs
  | [], [], vs, _, _, hv => by
    have : vs = [] := List.length_eq_zero.mp (by simpa using hv)
    subst this
    rfl
  | [], _ :: _, _, _, hc, _ => by simp at hc
  | _ :: _, [], _, _, hc, _ => by simp at hc
  | c :: cs, b :: bs, [], hm, hc, hv => by simp at hv
  | c :: cs, b :: bs, v :: vs', hm, hc, hv => by
    have hb : b = true := hm b (List.mem_cons_self b bs)
    subst hb
    have := maskFill_allTrue cs bs vs' (fun x hx => hm x (List.mem_cons_of_mem _ hx))
      (by simpa using hc) (by simpa using hv)
    simp [maskFill, this]

theorem maskFill_allFalse {α : Type} :
    ∀ (cur : List α) (mask : List Bool) (vs : List α),
      (∀ b ∈ mask, b = false) → maskFill cur mask vs = cur
  | [], _, _, _ => rfl
  | _ :: _, [], _, _ => rfl
  | c :: cs, b :: bs, vs, hm => by
    have hb : b = false := hm b (List.mem_cons_self b bs)
    subst hb
    have := maskFill_allFalse cs bs vs (fun x hx => hm x (List.mem_cons_of_mem _ hx))
    simp [maskFill, this]

theorem allSome_eq_some : ∀ {a : Arr} {qs : List ℚ},
    allSome a = some qs → a = qs.map some
  | [], qs, h => by
    simp [allSome] at h
    subst h
    rfl
  | none :: _, qs, h => by simp [allSome] at h
  | some q :: rest, qs, h => by
    simp [allSome] at h
    obtain ⟨l, hl, hq⟩ := h
    subst hq
    simp [allSome_eq_some hl]

theorem allSome_of_noNaN : ∀ {a : Arr}, noNaN a → ∃ qs, allSome a = some qs
  | [], _ => ⟨[], rfl⟩
  | none :: rest, h => absurd rfl (h none (List.mem_cons_self _ _))
  | some q :: rest, h => by
    obtain ⟨qs, hqs⟩ := allSome_of_noNaN (fun v hv => h v (List.mem_cons_of_mem _ hv))
    exact ⟨q :: qs, by simp [allSome, hqs]⟩

theorem le_foldl_max_init : ∀ (l : List ℚ) (q : ℚ), q ≤ l.foldl max q
  | [], q => le_refl q
  | x :: xs, q => le_trans (le_max_left q x) (le_foldl_max_init xs (max q x))

theorem le_foldl_max_mem : ∀ (l : List ℚ) (q x : ℚ), x ∈ l → x ≤ l.foldl max q
  | [], _, _, h => by simp at h
  | y :: ys, q, x, h => by
    rcases List.mem_cons.mp h with h1 | h2
    · subst h1
      exact le_trans (le_max_right q x) (le_foldl_max_init ys (max q x))
    · exact le_foldl_max_mem ys (max q y) x h2

theorem arrMax_ok_bound {a : Arr} {mx : ℚ} (h : arrMax a = .ok mx) :
    ∀ v ∈ a, ∃ q, v = some q ∧ q ≤ mx := by
  unfold arrMax at h
  cases hs : allSome a with
  | none => rw [hs] at h; exact absurd h (by simp)
  | some qs =>
    rw [hs] at h
    have ha := allSome_eq_some hs
    match qs, ha with
    | [], ha => exact absurd h (by simp)
    | q0 :: qs', ha =>
      intro v hv
      subst ha
      simp only [Except.ok.injEq] at h
      obtain ⟨x, hx, hvx⟩ := List.mem_map.mp hv
      refine ⟨x, hvx.symm, ?_⟩
      rw [← h]
      rcases List.mem_cons.mp hx with h1 | h2
      · subst h1
        exact le_foldl_max_init qs' x
      · exact le_foldl_max_mem qs' q0 x h2

theorem arrMax_ok_of_noNaN {a : Arr} (hn : noNaN a) (hne : a ≠ []) :
    ∃ mx, arrMax a = .ok mx := by
  obtain ⟨qs, hqs⟩ := allSome_of_noNaN hn
  unfold arrMax
  rw [hqs]
  match qs, allSome_eq_some hqs with
  | [], ha => exact absurd ha hne
  | q0 :: qs', _ => exact ⟨qs'.foldl max q0, rfl⟩

theorem mem_insSorted (x q : ℚ) : ∀ (l : List ℚ), x ∈ insSorted q l ↔ x = q ∨ x ∈ l
  | [] => by simp [insSorted]
  | y :: ys => by
    by_cases h : q ≤ y
    · simp [insSorted, h]
    · simp only [insSorted, if_neg h, List.mem_cons, mem_insSorted x q ys]
      tauto

theorem sorted_insSorted (q : ℚ) : ∀ (l : List ℚ), l.Sorted (· ≤ ·) →
    (insSorted q l).Sorted (· ≤ ·)
  | [], _ => by simp [insSorted]
  | y :: ys, h => by
    by_cases hq : q ≤ y
    · rw [insSorted, if_pos hq]
      refine List.sorted_cons.mpr ⟨?_, h⟩
      intro b hb
      rcases List.mem_cons.mp hb with h1 | h2
      · exact h1 ▸ hq
      · exact le_trans hq ((List.sorted_cons.mp h).1 b h2)
    · rw [insSorted, if_neg hq]
      have hys := (List.sorted_cons.mp h).2
      refine List.sorted_cons.mpr ⟨?_, sorted_insSorted q ys hys⟩
      intro b hb
      rcases (mem_insSorted b q ys).mp hb with h1 | h2
      · exact h1 ▸ le_of_not_le hq
      · exact (List.sorted_cons.mp h).1 b h2

theorem mem_sortAsc (x : ℚ) : ∀ (l : List ℚ), x ∈ sortAsc l ↔ x ∈ l
  | [] => Iff.rfl
  | y :: ys => by
    simp only [sortAsc, mem_insSorted x y (sortAsc ys), mem_sortAsc x ys, List.mem_cons]

theorem sorted_sortAsc : ∀ (l : List ℚ), (sortAsc l).Sorted (· ≤ ·)
  | [] => List.sorted_nil
  | y :: ys => sorted_insSorted y (sortAsc ys) (sorted_sortAsc ys)

theorem nodup_insSorted (q : ℚ) : ∀ (l : List ℚ), q ∉ l → l.Nodup →
    (insSorted q l).Nodup
  | [], _, _ => by simp [insSorted]
  | y :: ys, hq, hn => by
    by_cases h : q ≤ y
    · rw [insSorted, if_pos h]
      exact List.nodup_cons.mpr ⟨hq, hn⟩
    · rw [insSorted, if_neg h]
      obtain ⟨hy, hys⟩ := List.nodup_cons.mp hn
      refine List.nodup_cons.mpr ⟨?_, nodup_insSorted q ys (fun hc => hq (by simp [hc])) hys⟩
      intro hc
      rcases (mem_insSorted y q ys).mp hc with h1 | h2
      · exact hq (by simp [h1.symm])
      · exact hy h2

theorem nodup_sortAsc : ∀ (l : List ℚ), l.Nodup → (sortAsc l).Nodup
  | [], _ => List.nodup_nil
  | y :: ys, hn => by
    obtain ⟨hy, hys⟩ := List.nodup_cons.mp hn
    exact nodup_insSorted y (sortAsc ys) (fun hc => hy ((mem_sortAsc y ys).mp hc))
      (nodup_sortAsc ys hys)

theorem length_insSorted (q : ℚ) : ∀ (l : List ℚ), (insSorted q l).length = l.length + 1
  | [] => rfl
  | y :: ys => by
    by_cases h : q ≤ y
    · simp [insSorted, h]
    · simp [insSorted, h, length_insSorted q ys]

theorem length_sortAsc : ∀ (l : List ℚ), (sortAsc l).length = l.length
  | [] => rfl
  | y :: ys => by simp [sortAsc, length_insSorted, length_sortAsc ys]

theorem sorted_lt_uniqueNumeric (a : Arr) : (uniqueNumeric a).Sorted (· < ·) := by
  have hs := sorted_sortAsc (a.filterMap id).dedup
  have hn := nodup_sortAsc (a.filterMap id).dedup (List.nodup_dedup _)
  exact hs.lt_of_le hn

theorem mem_uniqueNumeric (q : ℚ) (a : Arr) : q ∈ uniqueNumeric a ↔ some q ∈ a := by
  rw [uniqueNumeric, mem_sortAsc, List.mem_dedup, List.mem_filterMap]
  constructor
  · rintro ⟨v, hv, hq⟩
    rwa [show v = some q from hq] at hv
  · intro h
    exact ⟨some q, h, rfl⟩

theorem length_uniqueNumeric (a : Arr) :
    (uniqueNumeric a).length = (a.filterMap id).toFinset.card := by
  rw [uniqueNumeric, length_sortAsc, List.card_toFinset]

theorem nodup_uniqueNumeric (a : Arr) : (uniqueNumeric a).Nodup :=
  nodup_sortAsc _ (List.nodup_dedup _)

theorem uniqueSorted_of_noNaN {a : Arr} (h : noNaN a) :
    uniqueSorted a = (uniqueNumeric a).map some := by
  rw [uniqueSorted, if_neg (fun hc => h none hc rfl), List.append_nil]

theorem beqVal_boolVal_one (b : Bool) : beqVal (boolVal b) (some 1) = b := by
  cases b <;> simp [beqVal, boolVal]

theorem beqVal_boolVal_zero (b : Bool) : beqVal (boolVal b) (some 0) = !b := by
  cases b <;> simp [beqVal, boolVal]

theorem beqVal_some_iff (q : ℚ) (w : Val) : beqVal (some q) w = true ↔ w = some q := by
  cases w with
  | none => simp [beqVal]
  | some p => simp [beqVal, eq_comm]

theorem beqVal_self_of_ne_none {v : Val} (h : v ≠ none) : beqVal v v = true := by
  cases v with
  | none => exact absurd rfl h
  | some q => simp [beqVal]

/-! ### Lemmas about the DataFrame operations -/

theorem find?_replaceCol_ne {k k' : String} (h : k' ≠ k) :
    ∀ (l : List (String × Arr)) (v : Arr),
      (replaceCol l k v).find? (fun kv => kv.1 == k') = l.find? (fun kv => kv.1 == k')
  | [], _ => rfl
  | ⟨a, w⟩ :: rest, v => by
    have hb' : (k == k') = false := beq_eq_false_iff_ne.mpr (fun hc => h hc.symm)
    by_cases hk : a = k
    · subst hk
      simp [replaceCol, List.find?_cons, hb', find?_replaceCol_ne h rest v]
    · have hb : (a == k) = false := beq_eq_false_iff_ne.mpr hk
      cases hak : a == k' with
      | true => simp [replaceCol, hb, List.find?_cons, hak]
      | false => simp [replaceCol, hb, List.find?_cons, hak, find?_replaceCol_ne h rest v]

theorem find?_setColList_self :
    ∀ (l : List (String × Arr)) (k : String) (v : Arr),
      (setColList l k v).find? (fun kv => kv.1 == k) = some (k, v)
  | [], k, v => by simp [setColList, List.find?_cons]
  | ⟨a, w⟩ :: rest, k, v => by
    by_cases hk : a = k
    · subst hk
      simp [setColList, List.find?_cons]
    · have hb : (a == k) = false := beq_eq_false_iff_ne.mpr hk
      simp [setColList, hb, List.find?_cons, find?_setColList_self rest k v]

theorem find?_setColList_ne {k k' : String} (h : k' ≠ k) :
    ∀ (l : List (String × Arr)) (v : Arr),
      (setColList l k v).find? (fun kv => kv.1 == k') = l.find? (fun kv => kv.1 == k')
  | [], v => by
    have hb' : (k == k') = false := beq_eq_false_iff_ne.mpr (fun hc => h hc.symm)
    simp [setColList, List.find?_cons, hb']
  | ⟨a, w⟩ :: rest, v => by
    have hb' : (k == k') = false := beq_eq_false_iff_ne.mpr (fun hc => h hc.symm)
    by_cases hk : a = k
    · subst hk
      simp [setColList, List.find?_cons, hb', find?_replaceCol_ne h rest v]
    · have hb : (a == k) = false := beq_eq_false_iff_ne.mpr hk
      cases hak : a == k' with
      | true => simp [setColList, hb, List.find?_cons, hak]
      | false => simp [setColList, hb, List.find?_cons, hak, find?_setColList_ne h rest v]

theorem dfGet_dfSetU_self (df : DataFrame) (k : String) (v : Arr) :
    dfGet (dfSetU df k v) k = some v := by
  rw [dfGet, dfSetU, find?_setColList_self]
  rfl

theorem dfGet_dfSetU_ne (df : DataFrame) {k k' : String} (h : k' ≠ k) (v : Arr) :
    dfGet (dfSetU df k v) k' = dfGet df k' := by
  rw [dfGet, dfSetU, find?_setColList_ne h]
  rfl

theorem find?_mapCol_self :
    ∀ (l : List (String × Arr)) (k : String) (f : Arr → Arr),
      (mapColList f l k).find? (fun kv => kv.1 == k) =
        (l.find? (fun kv => kv.1 == k)).map (fun kv => (kv.1, f kv.2))
  | [], _, _ => rfl
  | ⟨a, w⟩ :: rest, k, f => by
    by_cases hk : a = k
    · subst hk
      simp [mapColList, List.find?_cons]
    · have hb : (a == k) = false := beq_eq_false_iff_ne.mpr hk
      simp [mapColList, List.find?_cons, hb, find?_mapCol_self rest k f]

theorem find?_mapCol_ne {k k' : String} (h : k' ≠ k) :
    ∀ (l : List (String × Arr)) (f : Arr → Arr),
      (mapColList f l k).find? (fun kv => kv.1 == k') =
        l.find? (fun kv => kv.1 == k')
  | [], _ => rfl
  | ⟨a, w⟩ :: rest, f => by
    by_cases hk : a = k
    · subst hk
      have hb' : (a == k') = false := beq_eq_false_iff_ne.mpr (fun hc => h hc.symm)
      simp [mapColList, List.find?_cons, hb', find?_mapCol_ne h rest f]
    · have hb : (a == k) = false := beq_eq_false_iff_ne.mpr hk
      cases hak : a == k' with
      | true => simp [mapColList, List.find?_cons, hb, hak]
      | false => simp [mapColList, List.find?_cons, hb, hak, find?_mapCol_ne h rest f]

theorem dfGet_mapCol_self (df : DataFrame) (k : String) (f : Arr → Arr) :
    dfGet (mapCol df k f) k = (dfGet df k).map f := by
  rw [dfGet, mapCol, find?_mapCol_self, dfGet]
  cases df.cols.find? (fun kv => kv.1 == k) <;> rfl

theorem dfGet_mapCol_ne (df : DataFrame) {k k' : String} (h : k' ≠ k) (f : Arr → Arr) :
    dfGet (mapCol df k f) k' = dfGet df k' := by
  rw [dfGet, mapCol, find?_mapCol_ne h, dfGet]

theorem dfNRows_dfSetU (df : DataFrame) (k : String) (v : Arr)
    (h : df.cols = [] ∨ v.length = dfNRows df) :
    dfNRows (dfSetU df k v) = v.length := by
  rcases h with h | h
  · rw [dfSetU, h]
    rfl
  · match hc : df.cols with
    | [] => rw [dfSetU, hc]; rfl
    | c :: rest =>
      rw [dfNRows, hc] at h
      rw [dfSetU, hc, setColList]
      by_cases hk : c.1 == k
      · rw [if_pos hk]
        rfl
      · rw [if_neg hk]
        simpa [dfNRows] using h.symm

theorem dfSet_ok {df : DataFrame} {k : String} {v : Arr} {d : DataFrame}
    (h : dfSet df k v = .ok d) :
    d = dfSetU df k v ∧ (df.cols = [] ∨ v.length = dfNRows df) := by
  rw [dfSet] at h
  by_cases hc : (df.cols.isEmpty ∨ v.length = dfNRows df)
  · rw [if_pos hc] at h
    refine ⟨(Except.ok.inj h).symm, ?_⟩
    rcases hc with hc | hc
    · exact Or.inl (List.isEmpty_iff.mp hc)
    · exact Or.inr hc
  · rw [if_neg hc] at h
    exact absurd h (by simp)

theorem dfGet_of_dfHasCol {df : DataFrame} {k : String} (h : dfHasCol df k = true) :
    ∃ a, dfGet df k = some a := by
  rw [dfHasCol, List.any_eq_true] at h
  obtain ⟨kv, hmem, hbeq⟩ := h
  rw [dfGet]
  cases hf : df.cols.find? (fun kv => kv.1 == k) with
  | none => exact absurd hbeq (List.find?_eq_none.mp hf kv hmem)
  | some x => exact ⟨x.2, rfl⟩

theorem getD_range_map {α : Type} (l : List α) (d : α) :
    (List.range l.length).map (fun i => l.getD i d) = l := by
  induction l with
  | nil => rfl
  | cons x xs ih =>
    rw [List.length_cons, List.range_succ_eq_map, List.map_cons]
    have h1 : ((fun i => (x :: xs).getD i d) ∘ Nat.succ) = fun i => xs.getD i d := by
      funext i
      rfl
    rw [List.map_map, h1, ih]
    rfl

/-! ### Characterization of the tracks branch of sl_to_df -/

theorem tracksStep_ok {df0 : DataFrame} {t : Mat} {df : DataFrame}
    (h : tracksStep df0 t = .ok df) :
    ∃ molid row5 row3 mx,
      dfGet df0 "molid" = some molid ∧
      t.get? 5 = some row5 ∧ t.get? 3 = some row3 ∧ arrMax row3 = .ok mx ∧
      row3.length = countTrue (isin molid row5) ∧
      dfGet df "molid" = some molid ∧
      dfGet df "tracked" = some ((isin molid row5).map boolVal) ∧
      dfGet df "track_id" = some
        (maskFill
          (maskFill (List.replicate (isin molid row5).length (none : Val))
            (isin molid row5) row3)
          ((isin molid row5).map not)
          ((List.range (countTrue ((isin molid row5).map not))).map
            (fun k : ℕ => (some (mx + 1 + (k : ℚ)) : Val)))) := by
  unfold tracksStep at h
  split at h
  · exact absurd h (by simp)
  next molid hmol =>
    split at h
    · exact absurd h (by simp)
    next row5 hrow5 =>
      split at h
      next e hset => exact absurd h (by simp)
      next df1 hset =>
        simp only [] at h
        split at h
        · exact absurd h (by simp)
        next row3 hrow3 =>
          split at h
          next hguard =>
            split at h
            next e hmax => exact absurd h (by simp)
            next mx hmax =>
              obtain ⟨hdf1, hlen⟩ := dfSet_ok hset
              subst hdf1
              have htr : dfGet (dfSetU (dfSetU df0 "tracked"
                  ((isin molid row5).map boolVal)) "track_id"
                  (List.replicate (dfNRows (dfSetU df0 "tracked"
                    ((isin molid row5).map boolVal))) (none : Val))) "tracked" =
                  some ((isin molid row5).map boolVal) := by
                rw [dfGet_dfSetU_ne _ (by decide), dfGet_dfSetU_self]
              rw [htr, Option.getD_some] at hguard h
              have hmT : ((isin molid row5).map boolVal).map (fun v => beqVal v (some 1)) =
                  isin molid row5 := by
                rw [List.map_map]
                have hcomp : ((fun v => beqVal v (some 1)) ∘ boolVal) = id := by
                  funext b
                  exact beqVal_boolVal_one b
                rw [hcomp, List.map_id]
              have hmF : ((isin molid row5).map boolVal).map (fun v => beqVal v (some 0)) =
                  (isin molid row5).map not := by
                rw [List.map_map]
                have hcomp : ((fun v => beqVal v (some 0)) ∘ boolVal) = not := by
                  funext b
                  exact beqVal_boolVal_zero b
                rw [hcomp]
              rw [hmT] at hguard
              rw [hmT, hmF] at h
              have hrep : dfNRows (dfSetU df0 "tracked" ((isin molid row5).map boolVal)) =
                  (isin molid row5).length := by
                rw [dfNRows_dfSetU _ _ _ hlen, List.length_map]
              rw [hrep] at h
              have hdf := Except.ok.inj h
              subst hdf
              refine ⟨molid, row5, row3, mx, hmol, hrow5, hrow3, hmax, hguard, ?_, ?_, ?_⟩
              · rw [dfLocSet, dfGet_mapCol_ne _ (by decide), dfLocSet,
                    dfGet_mapCol_ne _ (by decide), dfGet_dfSetU_ne _ (by decide),
                    dfGet_dfSetU_ne _ (by decide)]
                exact hmol
              · rw [dfLocSet, dfGet_mapCol_ne _ (by decide), dfLocSet,
                    dfGet_mapCol_ne _ (by decide), dfGet_dfSetU_ne _ (by decide),
                    dfGet_dfSetU_self]
              · rw [dfLocSet, dfGet_mapCol_self, dfLocSet, dfGet_mapCol_self,
                    dfGet_dfSetU_self]
                rfl
          next hguard => exact absurd h (by simp)

theorem sl_to_df_ok_tracks {o : SlObject} {t : Mat} {df : DataFrame}
    (hT : o.tracks = some t) (h : sl_to_df o = .ok df) :
    ∃ df1, tracksStep df1 t = .ok df := by
  unfold sl_to_df at h
  split at h
  · exact absurd h (by simp)
  next df0 hbase =>
    split at h
    · exact absurd h (by simp)
    next df1 htf =>
      split at h
      next t' ht' =>
        rw [hT] at ht'
        cases Option.some.inj ht'
        exact ⟨df1, h⟩
      next ht' =>
        rw [hT] at ht'
        exact absurd ht' (by simp)

theorem boolVal_eq_one_iff (b : Bool) : boolVal b = some 1 ↔ b = true := by
  cases b <;> simp [boolVal]

theorem isin_allTrue {a b : Arr} (hsub : ∀ v ∈ a, ∃ w ∈ b, beqVal v w = true) :
    ∀ x ∈ isin a b, x = true := by
  intro x hx
  rw [isin] at hx
  obtain ⟨v, hv, hvx⟩ := List.mem_map.mp hx
  obtain ⟨w, hw, hbw⟩ := hsub v hv
  rw [← hvx, List.any_eq_true]
  exact ⟨w, hw, hbw⟩

theorem isin_self_allTrue {a : Arr} (h : noNaN a) : ∀ x ∈ isin a a, x = true :=
  isin_allTrue (fun v hv => ⟨v, hv, beqVal_self_of_ne_none (h v hv)⟩)

/-- A value stored in a column has the row count as its length, for
rectangular tables. -/
theorem dfGet_length_of_rect {df : DataFrame} {k : String} {a : Arr}
    (hrect : ∀ kv ∈ df.cols, kv.2.length = dfNRows df)
    (h : dfGet df k = some a) : a.length = dfNRows df := by
  rw [dfGet] at h
  cases hf : df.cols.find? (fun kv => kv.1 == k) with
  | none => rw [hf] at h; exact absurd h (by simp)
  | some kv =>
    rw [hf] at h
    have hmem := List.mem_of_find?_eq_some hf
    have := hrect kv hmem
    simp only [Option.map_some'] at h
    rw [← Option.some.inj h]
    exact this

theorem dfGet_noNaN {df : DataFrame} {k : String} {a : Arr}
    (hnn : ∀ kv ∈ df.cols, noNaN kv.2)
    (h : dfGet df k = some a) : noNaN a := by
  rw [dfGet] at h
  cases hf : df.cols.find? (fun kv => kv.1 == k) with
  | none => rw [hf] at h; exact absurd h (by simp)
  | some kv =>
    rw [hf] at h
    have hmem := List.mem_of_find?_eq_some hf
    simp only [Option.map_some'] at h
    rw [← Option.some.inj h]
    exact hnn kv hmem

/-! ### Forward computation lemmas for the round trip -/

theorem matColumn_buildTracks_3 (df : DataFrame)
    (hlen : (colD df "track_id").length = dfNRows df) :
    matColumn (buildTracks df) 3 = colD df "track_id" := by
  rw [matColumn, buildTracks]
  simp only [List.map_map]
  have hfun : ((fun r : Arr => r.getD 3 none) ∘ (fun i =>
      [(colD df "frame").getD i (some 0), (colD df "row").getD i (some 0),
       (colD df "col").getD i (some 0), (colD df "track_id").getD i (some 0),
       (colD df "roinum").getD i (some 0),
       (if dfHasCol df "molid" then colD df "molid"
        else (List.range (dfNRows df)).map (fun i2 : ℕ => (some (i2 : ℚ) : Val))).getD i (some 0)])) =
      fun i => (colD df "track_id").getD i (some 0) := by
    funext i
    rfl
  rw [hfun, ← hlen]
  exact getD_range_map _ _

theorem matColumn_buildTracks_5 (df : DataFrame) (hmol : dfHasCol df "molid" = true)
    (hlen : (colD df "molid").length = dfNRows df) :
    matColumn (buildTracks df) 5 = colD df "molid" := by
  rw [matColumn, buildTracks]
  simp only [List.map_map, hmol, if_true]
  have hfun : ((fun r : Arr => r.getD 5 none) ∘ (fun i =>
      [(colD df "frame").getD i (some 0), (colD df "row").getD i (some 0),
       (colD df "col").getD i (some 0), (colD df "track_id").getD i (some 0),
       (colD df "roinum").getD i (some 0), (colD df "molid").getD i (some 0)])) =
      fun i => (colD df "molid").getD i (some 0) := by
    funext i
    rfl
  rw [hfun, ← hlen]
  exact getD_range_map _ _

theorem tracksStep_self {df : DataFrame} {t : Mat} {molid row3 : Arr}
    (hmol : dfGet df "molid" = some molid)
    (h5 : t.get? 5 = some molid)
    (h3 : t.get? 3 = some row3)
    (hlenm : molid.length = dfNRows df)
    (hlen3 : row3.length = molid.length)
    (hnnm : noNaN molid) (hnn3 : noNaN row3)
    (hne : molid ≠ []) :
    ∃ d, tracksStep df t = .ok d ∧
      dfGet d "track_id" = some row3 ∧
      dfGet d "tracked" = some ((isin molid molid).map boolVal) ∧
      (∀ k, k ≠ "tracked" → k ≠ "track_id" → dfGet d k = dfGet df k) := by
  have htt : ∀ b ∈ isin molid molid, b = true := isin_self_allTrue hnnm
  have hlent : ((isin molid molid).map boolVal).length = dfNRows df := by
    rw [List.length_map, isin, List.length_map]
    exact hlenm
  have hset : dfSet df "tracked" ((isin molid molid).map boolVal) =
      .ok (dfSetU df "tracked" ((isin molid molid).map boolVal)) := by
    rw [dfSet, if_pos (Or.inr hlent)]
  have hrep : dfNRows (dfSetU df "tracked" ((isin molid molid).map boolVal)) =
      (isin molid molid).length := by
    rw [dfNRows_dfSetU _ _ _ (Or.inr hlent), List.length_map]
  have htrcol : dfGet (dfSetU (dfSetU df "tracked" ((isin molid molid).map boolVal))
      "track_id" (List.replicate (dfNRows (dfSetU df "tracked"
        ((isin molid molid).map boolVal))) (none : Val))) "tracked" =
      some ((isin molid molid).map boolVal) := by
    rw [dfGet_dfSetU_ne _ (by decide), dfGet_dfSetU_self]
  have hmT : ((isin molid molid).map boolVal).map (fun v => beqVal v (some 1)) =
      isin molid molid := by
    rw [List.map_map]
    have hcomp : ((fun v => beqVal v (some 1)) ∘ boolVal) = id := by
      funext b
      exact beqVal_boolVal_one b
    rw [hcomp, List.map_id]
  have hmF : ((isin molid molid).map boolVal).map (fun v => beqVal v (some 0)) =
      (isin molid molid).map not := by
    rw [List.map_map]
    have hcomp : ((fun v => beqVal v (some 0)) ∘ boolVal) = not := by
      funext b
      exact beqVal_boolVal_zero b
    rw [hcomp]
  have hcT : countTrue (isin molid molid) = molid.length := by
    rw [countTrue_allTrue htt, isin, List.length_map]
  have hguard : row3.length = countTrue (isin molid molid) := by rw [hcT, hlen3]
  obtain ⟨mx, hmx⟩ := arrMax_ok_of_noNaN hnn3 (by
    intro hc
    apply hne
    rw [hc] at hlen3
    exact List.length_eq_zero.mp hlen3.symm)
  have hcF : countTrue ((isin molid molid).map not) = 0 := by
    apply countTrue_allFalse
    intro b hb
    obtain ⟨x, hx, hxb⟩ := List.mem_map.mp hb
    rw [← hxb, htt x hx]
    rfl
  unfold tracksStep
  rw [hmol]
  simp only []
  rw [h5]
  simp only []
  rw [hset]
  simp only []
  rw [h3]
  simp only []
  rw [htrcol, Option.getD_some, hmT, hmF]
  rw [if_pos hguard, hmx]
  simp only []
  refine ⟨_, rfl, ?_, ?_, ?_⟩
  · rw [dfLocSet, dfGet_mapCol_self, dfLocSet, dfGet_mapCol_self, dfGet_dfSetU_self]
    simp only [Option.map_some']
    congr 1
    rw [hcF]
    simp only [List.range_zero, List.map_nil]
    rw [maskFill_allFalse _ _ _ (by
      intro b hb
      obtain ⟨x, hx, hxb⟩ := List.mem_map.mp hb
      rw [← hxb, htt x hx]
      rfl)]
    apply maskFill_allTrue _ _ _ htt
    · rw [List.length_replicate, hrep]
    · rw [hlen3, isin, List.length_map]
  · rw [dfLocSet, dfGet_mapCol_ne _ (by decide), dfLocSet, dfGet_mapCol_ne _ (by decide),
        dfGet_dfSetU_ne _ (by decide), dfGet_dfSetU_self]
  · intro k hk1 hk2
    rw [dfLocSet, dfGet_mapCol_ne _ hk2, dfLocSet, dfGet_mapCol_ne _ hk2,
        dfGet_dfSetU_ne _ hk2, dfGet_dfSetU_ne _ hk1]

/-! ### Remaining helper lemmas -/

theorem fitsRow0_singleton : ∀ (cols : List (String × Arr)),
    fitsRow0 (cols.map (fun kv => (kv.1, ([kv.2] : Mat)))) = .ok cols
  | [] => rfl
  | kv :: rest => by
    simp [fitsRow0, row0, fitsRow0_singleton rest]

theorem mkDF_of_rect {cols : List (String × Arr)} {n : ℕ}
    (h : ∀ kv ∈ cols, kv.2.length = n) : mkDF cols = .ok ⟨cols⟩ := by
  match cols, h with
  | [], _ => rfl
  | c :: rest, h =>
    have hall : rest.all (fun kv => kv.2.length == c.2.length) = true := by
      rw [List.all_eq_true]
      intro kv hkv
      have h1 := h kv (List.mem_cons_of_mem _ hkv)
      have h2 := h c (List.mem_cons_self _ _)
      simp [h1, h2]
    simp [mkDF, hall]

theorem get?_range6_map {α : Type} (f : ℕ → α) (j : ℕ) (hj : j < 6) :
    ((List.range 6).map f).get? j = some (f j) := by
  rw [List.get?_eq_getElem?]
  simp [List.getElem?_map, List.getElem?_range, hj]

theorem map_beq_one_boolVal (l : List Bool) :
    (l.map boolVal).map (fun v => beqVal v (some 1)) = l := by
  rw [List.map_map]
  have hcomp : ((fun v => beqVal v (some 1)) ∘ boolVal) = id := by
    funext b
    exact beqVal_boolVal_one b
  rw [hcomp, List.map_id]

theorem map_beq_zero_boolVal (l : List Bool) :
    (l.map boolVal).map (fun v => beqVal v (some 0)) = l.map not := by
  rw [List.map_map]
  have hcomp : ((fun v => beqVal v (some 0)) ∘ boolVal) = not := by
    funext b
    exact beqVal_boolVal_zero b
  rw [hcomp]

/-! ### The claims -/

/-- C1 (counterexample): for a table whose columns are exactly the required
set `{frame, row, col, track_id, roinum}`, the round trip fails instead of
reproducing the values: `df_to_sl` emits `tracks` (second conjunct) but puts
the synthesized molecule ids only into the tracks matrix, never into `fits`,
so `sl_to_df` stops with a KeyError when it evaluates `df['molid']` at
biteen_io.py:221. -/
theorem c1_roundtrip_counterexample :
    requiredCols.all (fun c => dfHasCol exDfRequired c) = true ∧
    (df_to_sl exDfRequired none).1.tracks.isSome = true ∧
    sl_to_df (loadMat (df_to_sl exDfRequired none).1) = .error "KeyError: molid" := by
  decide

/-- C1 (amended): for every nonempty rectangular NaN-free table containing
the required columns AND a `molid` column, converting to the legacy structure
and back through the documented .mat persistence conventions (`loadMat`)
reproduces the `frame`, `row`, `col`, `track_id` and `roinum` columns. -/
theorem c1_roundtrip_amended (df : DataFrame)
    (hrect : ∀ kv ∈ df.cols, kv.2.length = dfNRows df)
    (hnn : ∀ kv ∈ df.cols, noNaN kv.2)
    (hpos : 0 < dfNRows df)
    (hfr : dfHasCol df "frame" = true) (hrw : dfHasCol df "row" = true)
    (hcl : dfHasCol df "col" = true) (hti : dfHasCol df "track_id" = true)
    (hro : dfHasCol df "roinum" = true) (hmo : dfHasCol df "molid" = true) :
    (sl_to_df (loadMat (df_to_sl df none).1)).map
        (fun d => (dfGet d "frame", dfGet d "row", dfGet d "col",
                   dfGet d "track_id", dfGet d "roinum")) =
      .ok (dfGet df "frame", dfGet df "row", dfGet df "col",
           dfGet df "track_id", dfGet df "roinum") := by
  have hreq : requiredCols.all (fun c => dfHasCol df c) = true := by
    simp [requiredCols, hfr, hrw, hcl, hti, hro]
  have hdict : (df_to_sl df none).1 = ⟨df.cols, some (buildTracks df)⟩ := by
    simp [df_to_sl, applyMapper, hreq]
  rw [hdict]
  have hfits : (loadMat ⟨df.cols, some (buildTracks df)⟩).fits =
      some (df.cols.map (fun kv => (kv.1, ([kv.2] : Mat)))) := rfl
  have hT : (loadMat ⟨df.cols, some (buildTracks df)⟩).tracks =
      some ((List.range 6).map (fun j => matColumn (buildTracks df) j)) := rfl
  have hbase : baseStep (loadMat ⟨df.cols, some (buildTracks df)⟩) = .ok df := by
    unfold baseStep
    rw [hfits]
    simp only []
    rw [fitsRow0_singleton]
    simp only []
    rw [mkDF_of_rect hrect]
  have htf : trkFiltStep (loadMat ⟨df.cols, some (buildTracks df)⟩) df = .ok df := rfl
  obtain ⟨molidArr, hmolget⟩ := dfGet_of_dfHasCol hmo
  obtain ⟨tidArr, htidget⟩ := dfGet_of_dfHasCol hti
  have hcolDm : colD df "molid" = molidArr := by rw [colD, hmolget]; rfl
  have hcolDt : colD df "track_id" = tidArr := by rw [colD, htidget]; rfl
  have hlenm : molidArr.length = dfNRows df := dfGet_length_of_rect hrect hmolget
  have hlent : tidArr.length = dfNRows df := dfGet_length_of_rect hrect htidget
  have h5 : ((List.range 6).map (fun j => matColumn (buildTracks df) j)).get? 5 =
      some molidArr := by
    rw [get?_range6_map _ 5 (by omega),
        matColumn_buildTracks_5 df hmo (by rw [hcolDm]; exact hlenm), hcolDm]
  have h3 : ((List.range 6).map (fun j => matColumn (buildTracks df) j)).get? 3 =
      some tidArr := by
    rw [get?_range6_map _ 3 (by omega),
        matColumn_buildTracks_3 df (by rw [hcolDt]; exact hlent), hcolDt]
  have hnnm : noNaN molidArr := dfGet_noNaN hnn hmolget
  have hnn3 : noNaN tidArr := dfGet_noNaN hnn htidget
  have hne : molidArr ≠ [] := by
    intro hc
    rw [hc] at hlenm
    simp at hlenm
    omega
  obtain ⟨d, hstep, htidd, htrackedd, hothers⟩ :=
    tracksStep_self hmolget h5 h3 hlenm (by rw [hlent, hlenm]) hnnm hnn3 hne
  have hsl : sl_to_df (loadMat ⟨df.cols, some (buildTracks df)⟩) = .ok d := by
    unfold sl_to_df
    rw [hbase]
    simp only []
    rw [htf]
    simp only []
    rw [hT]
    simp only []
    exact hstep
  rw [hsl]
  have e1 : dfGet d "frame" = dfGet df "frame" := hothers _ (by decide) (by decide)
  have e2 : dfGet d "row" = dfGet df "row" := hothers _ (by decide) (by decide)
  have e3 : dfGet d "col" = dfGet df "col" := hothers _ (by decide) (by decide)
  have e5 : dfGet d "roinum" = dfGet df "roinum" := hothers _ (by decide) (by decide)
  have e4 : dfGet d "track_id" = dfGet df "track_id" := by rw [htidd, htidget]
  simp only [Except.map, e1, e2, e3, e4, e5]

/-- C1 (witness): the amended round trip at a concrete one-row table with the
required columns plus `molid`. -/
theorem c1_roundtrip_witness :
    (sl_to_df (loadMat (df_to_sl exDfRequiredMolid none).1)).map
        (fun d => (dfGet d "frame", dfGet d "row", dfGet d "col",
                   dfGet d "track_id", dfGet d "roinum")) =
      .ok (dfGet exDfRequiredMolid "frame", dfGet exDfRequiredMolid "row",
           dfGet exDfRequiredMolid "col", dfGet exDfRequiredMolid "track_id",
           dfGet exDfRequiredMolid "roinum") :=
  c1_roundtrip_amended exDfRequiredMolid (by decide) (by decide) (by decide)
    (by decide) (by decide) (by decide) (by decide) (by decide) (by decide)

/-- C2: for every legacy structure with both `fits` and `tracks` on which
`sl_to_df` returns a table, a row is flagged tracked exactly when its
(numeric) `molid` appears in the 6th row of the tracks matrix, and every
tracked row carries a defined, non-NaN `track_id`. -/
theorem c2_tracked_iff_molid_in_tracks (o : SlObject) (fits : List (String × Mat))
    (t : Mat) (df : DataFrame) (molidCol trackedCol tidCol row5 : Arr)
    (_hfits : o.fits = some fits) (htr : o.tracks = some t)
    (hok : sl_to_df o = .ok df)
    (hmolc : dfGet df "molid" = some molidCol)
    (htrackedc : dfGet df "tracked" = some trackedCol)
    (htidc : dfGet df "track_id" = some tidCol)
    (hrow5c : t.get? 5 = some row5) :
    (∀ (i : ℕ) (q : ℚ), molidCol[i]? = some (some q) →
      (trackedCol[i]? = some (some 1) ↔ some q ∈ row5)) ∧
    (∀ i : ℕ, trackedCol[i]? = some (some 1) →
      ∃ q : ℚ, tidCol[i]? = some (some q)) := by
  obtain ⟨df1, hstep⟩ := sl_to_df_ok_tracks htr hok
  obtain ⟨molid, row5', row3, mx, _, h5, h3, hmax, hguard, hm, ht, hti⟩ := tracksStep_ok hstep
  rw [hmolc] at hm
  cases Option.some.inj hm
  rw [hrow5c] at h5
  cases Option.some.inj h5
  rw [htrackedc] at ht
  cases Option.some.inj ht
  rw [htidc] at hti
  cases Option.some.inj hti
  constructor
  · intro i q hiq
    have hisin : (isin molidCol row5)[i]? =
        some (row5.any (fun y => beqVal (some q) y)) := by
      rw [isin, List.getElem?_map, hiq]
      rfl
    have htcki : ((isin molidCol row5).map boolVal)[i]? =
        some (boolVal (row5.any (fun y => beqVal (some q) y))) := by
      rw [List.getElem?_map, hisin]
      rfl
    rw [htcki]
    constructor
    · intro h1
      have hb := (boolVal_eq_one_iff _).mp (Option.some.inj h1)
      rw [List.any_eq_true] at hb
      obtain ⟨w, hw, hbw⟩ := hb
      rwa [(beqVal_some_iff q w).mp hbw] at hw
    · intro h2
      have hany : row5.any (fun y => beqVal (some q) y) = true :=
        List.any_eq_true.mpr ⟨some q, h2, (beqVal_some_iff q (some q)).mpr rfl⟩
      rw [hany]
      rfl
  · intro i h1
    have hb : ∃ b, (isin molidCol row5)[i]? = some b ∧ boolVal b = some 1 := by
      rw [List.getElem?_map] at h1
      cases hbx : (isin molidCol row5)[i]? with
      | none => rw [hbx] at h1; simp at h1
      | some b => rw [hbx] at h1; exact ⟨b, rfl, Option.some.inj h1⟩
    obtain ⟨b, hbi, hb1⟩ := hb
    have hbt : b = true := (boolVal_eq_one_iff b).mp hb1
    subst hbt
    have hnoti : ((isin molidCol row5).map not)[i]? = some false := by
      rw [List.getElem?_map, hbi]
      rfl
    have houter := maskFill_get_false
      (maskFill (List.replicate (isin molidCol row5).length (none : Val))
        (isin molidCol row5) row3)
      ((isin molidCol row5).map not)
      ((List.range (countTrue ((isin molidCol row5).map not))).map
        (fun k : ℕ => (some (mx + 1 + (k : ℚ)) : Val))) i hnoti
    obtain ⟨v, hv, hvmem⟩ := maskFill_get_true
      (List.replicate (isin molidCol row5).length (none : Val))
      (isin molidCol row5) row3 i hbi (by rw [List.length_replicate])
      (le_of_eq hguard.symm)
    obtain ⟨q, hq, _⟩ := arrMax_ok_bound hmax v hvmem
    exact ⟨q, by rw [houter, hv, hq]⟩

/-- C2 (witness): the tracked/molid correspondence on a concrete run with
molecules 1,2,3 of which 1 and 3 are tracked. -/
theorem c2_tracked_witness :
    (∀ (i : ℕ) (q : ℚ), ([some 1, some 2, some 3] : Arr)[i]? = some (some q) →
      (([some 1, some 0, some 1] : Arr)[i]? = some (some 1) ↔
        some q ∈ ([some 3, some 1] : Arr))) ∧
    (∀ i : ℕ, ([some 1, some 0, some 1] : Arr)[i]? = some (some 1) →
      ∃ q : ℚ, ([some 5, some 8, some 7] : Arr)[i]? = some (some q)) :=
  c2_tracked_iff_molid_in_tracks exObjTracks exFitsMolid exTracksMat exObjTracksOut
    [some 1, some 2, some 3] [some 1, some 0, some 1] [some 5, some 8, some 7]
    [some 3, some 1] rfl rfl (by decide) (by decide) (by decide) (by decide) (by decide)

/-- C3: on every successful `sl_to_df` run with `fits` and `tracks`, the ids
synthesized for the untracked rows form exactly the contiguous ascending
block max+1, max+2, ..., max+n (n = number of untracked rows, max = largest
real track id), so they are pairwise distinct, number exactly the untracked
rows, and are disjoint from the real ids of the tracks matrix. -/
theorem c3_synthesized_ids (o : SlObject) (fits : List (String × Mat)) (t : Mat)
    (df : DataFrame) (row3 : Arr) (mx : ℚ)
    (_hfits : o.fits = some fits) (htr : o.tracks = some t)
    (hrow3 : t.get? 3 = some row3) (hmax : arrMax row3 = .ok mx)
    (hok : sl_to_df o = .ok df) :
    synthIds df = (List.range (countTrue (untrackedMask df))).map
      (fun k : ℕ => (some (mx + 1 + (k : ℚ)) : Val)) ∧
    (synthIds df).length = countTrue (untrackedMask df) ∧
    (∀ v ∈ synthIds df, ∀ w ∈ row3, beqVal v w = false) ∧
    (synthIds df).Nodup := by
  obtain ⟨df1, hstep⟩ := sl_to_df_ok_tracks htr hok
  obtain ⟨molid, row5, row3', mx', _, h5, h3, hmax', hguard, hm, ht, hti⟩ := tracksStep_ok hstep
  rw [hrow3] at h3
  cases Option.some.inj h3
  rw [hmax] at hmax'
  cases Except.ok.inj hmax'
  have hmaskF : untrackedMask df = (isin molid row5).map not := by
    rw [untrackedMask, colD, ht, Option.getD_some, map_beq_zero_boolVal]
  have hsynth : synthIds df = (List.range (countTrue ((isin molid row5).map not))).map
      (fun k : ℕ => (some (mx + 1 + (k : ℚ)) : Val)) := by
    rw [synthIds, hmaskF, colD, hti, Option.getD_some]
    exact maskSelect_maskFill _ _ _
      (by rw [maskFill_length, List.length_replicate, List.length_map])
      (by rw [List.length_map, List.length_range])
  refine ⟨by rw [hsynth, hmaskF], ?_, ?_, ?_⟩
  · rw [hsynth, hmaskF, List.length_map, List.length_range]
  · intro v hv w hw
    rw [hsynth] at hv
    obtain ⟨k, hk, hkv⟩ := List.mem_map.mp hv
    obtain ⟨p, hp, hple⟩ := arrMax_ok_bound hmax w hw
    rw [← hkv, hp, beqVal]
    apply decide_eq_false
    intro hc
    have hlt : p < mx + 1 + (k : ℚ) := by
      calc p ≤ mx := hple
        _ < mx + 1 := by linarith
        _ ≤ mx + 1 + (k : ℚ) := by
          have hge : (0 : ℚ) ≤ (k : ℚ) := Nat.cast_nonneg k
          linarith
    exact absurd hc (ne_of_gt hlt)
  · rw [hsynth]
    refine List.Nodup.map ?_ (List.nodup_range _)
    intro k1 k2 hk
    have h1 := Option.some.inj hk
    have h2 : (k1 : ℚ) = (k2 : ℚ) := by linarith [add_left_cancel h1]
    exact_mod_cast h2

/-- C3 (witness): the synthesized-id block on a concrete run (one untracked
row, real ids {5, 7}, synthesized block {8}). -/
theorem c3_synthesized_witness :
    synthIds exObjTracksOut = (List.range (countTrue (untrackedMask exObjTracksOut))).map
      (fun k : ℕ => (some ((7 : ℚ) + 1 + (k : ℚ)) : Val)) ∧
    (synthIds exObjTracksOut).length = countTrue (untrackedMask exObjTracksOut) ∧
    (∀ v ∈ synthIds exObjTracksOut, ∀ w ∈ ([some 5, some 7] : Arr), beqVal v w = false) ∧
    (synthIds exObjTracksOut).Nodup :=
  c3_synthesized_ids exObjTracks exFitsMolid exTracksMat exObjTracksOut
    [some 5, some 7] 7 rfl rfl (by decide) (by decide) (by decide)

/-- C4 (counterexample): the tracked rows' `track_id`s are NOT obtained by a
molecule-id join. `exObjJoinPerm` differs from `exObjJoin` only by a column
permutation of the tracks matrix — the (track id, molecule id) pairs are
identical — and the molid column of the output is the same, yet the resulting
`track_id` columns differ: the row with molid 10 gets id 100 in one run
(although the tracks column bearing molecule-id 10 carries id 200) and id 200
in the other. -/
theorem c4_molid_join_counterexample :
    (sl_to_df exObjJoin).map (fun d => dfGet d "molid") = .ok (some [some 10, some 20]) ∧
    (sl_to_df exObjJoinPerm).map (fun d => dfGet d "molid") = .ok (some [some 10, some 20]) ∧
    (sl_to_df exObjJoin).map (fun d => dfGet d "track_id") =
      .ok (some [some 100, some 200]) ∧
    (sl_to_df exObjJoinPerm).map (fun d => dfGet d "track_id") =
      .ok (some [some 200, some 100]) ∧
    ¬ ((sl_to_df exObjJoin).map (fun d => dfGet d "track_id") =
       (sl_to_df exObjJoinPerm).map (fun d => dfGet d "track_id")) := by
  decide

/-- C4 (amended): the correlation is positional, not a molecule-id join: on
every successful `sl_to_df` run with `tracks`, the `track_id` values of the
tracked rows, read in table row order, are exactly the 4th row of the tracks
matrix in its stored column order. -/
theorem c4_positional_assignment (o : SlObject) (fits : List (String × Mat))
    (t : Mat) (df : DataFrame) (row3 : Arr)
    (_hfits : o.fits = some fits) (htr : o.tracks = some t)
    (hrow3 : t.get? 3 = some row3)
    (hok : sl_to_df o = .ok df) :
    trackedIds df = row3 := by
  obtain ⟨df1, hstep⟩ := sl_to_df_ok_tracks htr hok
  obtain ⟨molid, row5, row3', mx, _, h5, h3, hmax, hguard, hm, ht, hti⟩ := tracksStep_ok hstep
  rw [hrow3] at h3
  cases Option.some.inj h3
  have hmaskT : trackedMask df = isin molid row5 := by
    rw [trackedMask, colD, ht, Option.getD_some, map_beq_one_boolVal]
  rw [trackedIds, hmaskT, colD, hti, Option.getD_some]
  rw [maskSelect_maskFill_not _ _ _
    (by rw [maskFill_length, List.length_replicate])]
  exact maskSelect_maskFill _ _ _ (by rw [List.length_replicate]) hguard

/-- C4 (witness): the positional copy on the concrete join example. -/
theorem c4_positional_witness : trackedIds exObjJoinOut = [some 100, some 200] :=
  c4_positional_assignment exObjJoin exFitsJoin exTracksJoin exObjJoinOut
    [some 100, some 200] rfl rfl (by decide) (by decide)

/-- C5 (counterexample): the claim quantifies over every localization table,
and the spec's data model allows NaN track ids — but there it is false. On a
two-row table whose second row has a NaN track id, `np.unique` retains the
NaN while `track_ids == nan` selects nothing (NaN is unequal to itself), so
`df_to_so` emits an empty extra group for NaN and the NaN row appears in no
group: the groups hold 1 row in total against 2 table rows, so a row is
dropped. -/
theorem c5_partition_counterexample :
    df_to_so exDfPartitionNaN "frame" "x" "y" "track_id" 1 1 =
      .ok [⟨[(some 0, some 0)], [0], [0]⟩, ⟨[], [], []⟩] ∧
    (df_to_so exDfPartitionNaN "frame" "x" "y" "track_id" 1 1).map
      (fun gs => (gs.map (fun g => g.frame.length)).sum) = .ok 1 ∧
    dfNRows exDfPartitionNaN = 2 ∧ ¬ ((1 : ℕ) = 2) := by
  decide

/-- C5 (amended): for every table whose track column and frame column are
NaN-free (NaN track ids produce the empty extra group and dropped rows of the
counterexample; `astype('int')` on a NaN frame is undefined), `df_to_so`
emits one group per distinct track value (the count equals the number of
distinct values), groups appear in strictly ascending id order with no
duplicated id, and the output is exactly the per-id boolean-mask selections
of the scaled coordinates, the timestamps frame×interval and the
integer-cast frames, in input row order — so no row is dropped or
duplicated. On the spec's concrete example (ids [1,1,2,3,3,3], frames
[0,1,0,5,6,7]) it yields 3 groups of sizes 2,1,3, in id order, with the
matching frame sub-sequences; on a zero-row table it yields the empty
sequence. -/
theorem c5_partition :
    (∀ (df : DataFrame) (fc xc yc tc : String) (ps tf : ℚ) (fr xa ya tr : Arr),
      dfGet df fc = some fr → dfGet df xc = some xa → dfGet df yc = some ya →
      dfGet df tc = some tr → noNaN fr → noNaN tr →
      List.Sorted (· < ·) (uniqueNumeric tr) ∧
      (∀ q : ℚ, q ∈ uniqueNumeric tr ↔ some q ∈ tr) ∧
      (uniqueNumeric tr).Nodup ∧
      (uniqueNumeric tr).length = (tr.filterMap id).toFinset.card ∧
      df_to_so df fc xc yc tc ps tf = .ok ((uniqueNumeric tr).map (fun ti =>
        let mask := tr.map (fun v => beqVal v (some ti))
        ⟨maskSelect mask ((xa.zip ya).map
            (fun p => (p.1.map (fun q => q * ps), p.2.map (fun q => q * ps)))),
         maskSelect mask ((fr.map truncVal).map (fun f : ℤ => (f : ℚ) * tf)),
         maskSelect mask (fr.map truncVal)⟩))) ∧
    df_to_so exDfPartitionEmpty "frame" "x" "y" "track_id" 1 1 = .ok [] ∧
    df_to_so exDfPartition "frame" "x" "y" "track_id" 1 1 =
      .ok [⟨[(some 0, some 0), (some 0, some 0)], [0, 1], [0, 1]⟩,
           ⟨[(some 0, some 0)], [0], [0]⟩,
           ⟨[(some 0, some 0), (some 0, some 0), (some 0, some 0)], [5, 6, 7], [5, 6, 7]⟩] := by
  refine ⟨?_, by decide, by decide⟩
  intro df fc xc yc tc ps tf fr xa ya tr hfr hxa hya htr hfnn htnn
  have e1 : dfGetE df fc = .ok fr := by rw [dfGetE, hfr]
  have e2 : dfGetE df xc = .ok xa := by rw [dfGetE, hxa]
  have e3 : dfGetE df yc = .ok ya := by rw [dfGetE, hya]
  have e4 : dfGetE df tc = .ok tr := by rw [dfGetE, htr]
  refine ⟨sorted_lt_uniqueNumeric tr, fun q => mem_uniqueNumeric q tr,
    nodup_uniqueNumeric tr, length_uniqueNumeric tr, ?_⟩
  unfold df_to_so
  rw [e1, e2, e3, e4]
  simp only []
  rw [uniqueSorted_of_noNaN htnn, List.map_map]
  rfl

/-- C5 (witness): the amended partition characterization applied to the
spec's concrete example table. -/
theorem c5_partition_witness :
    List.Sorted (· < ·) (uniqueNumeric exTrackCol) ∧
    (uniqueNumeric exTrackCol).length = (exTrackCol.filterMap id).toFinset.card :=
  ⟨(c5_partition.1 exDfPartition "frame" "x" "y" "track_id" 1 1
      [some 0, some 1, some 0, some 5, some 6, some 7]
      [some 0, some 0, some 0, some 0, some 0, some 0]
      [some 0, some 0, some 0, some 0, some 0, some 0]
      exTrackCol (by decide) (by decide) (by decide) (by decide) (by decide)
      (by decide)).1,
   (c5_partition.1 exDfPartition "frame" "x" "y" "track_id" 1 1
      [some 0, some 1, some 0, some 5, some 6, some 7]
      [some 0, some 0, some 0, some 0, some 0, some 0]
      [some 0, some 0, some 0, some 0, some 0, some 0]
      exTrackCol (by decide) (by decide) (by decide) (by decide) (by decide)
      (by decide)).2.2.2.1⟩

/-- C6: when, after renaming, at least one required column is missing,
`df_to_sl` is still total (the model returns a value, no error path exists in
the translated code), the result has no `tracks` entry, and `fits` carries
exactly one entry per column of the (renamed) table, in order. -/
theorem c6_tracks_omitted (df : DataFrame) (m : Option (List (String × String)))
    (h : requiredCols.all (fun c => dfHasCol (applyMapper df m) c) = false) :
    (df_to_sl df m).1.tracks = none ∧
    (df_to_sl df m).1.fits = (applyMapper df m).cols := by
  constructor
  · simp [df_to_sl, h]
  · simp [df_to_sl]

/-- C6 (witness): a table having only a `frame` column. -/
theorem c6_tracks_omitted_witness :
    (df_to_sl exDfNoTracks none).1.tracks = none ∧
    (df_to_sl exDfNoTracks none).1.fits = (applyMapper exDfNoTracks none).cols :=
  c6_tracks_omitted exDfNoTracks none (by decide)

/-- C7: with neither `fits` nor `guesses` present, `sl_to_df` produces no
table: the local `df` is never bound and its first use raises (a NameError, a
lookup failure equivalent to the spec's "key-error-equivalent"; the model
returns an error and no output). -/
theorem c7_no_fits_no_guesses_error (o : SlObject)
    (h1 : o.fits = none) (h2 : o.guesses = none) :
    sl_to_df o = .error "NameError: name df is not defined" := by
  have hb : baseStep o = .error "NameError: name df is not defined" := by
    unfold baseStep
    rw [h1]
    simp only []
    rw [h2]
  unfold sl_to_df
  rw [hb]

/-- C7 (witness): the empty legacy object. -/
theorem c7_no_fits_witness :
    sl_to_df exObjBare = .error "NameError: name df is not defined" :=
  c7_no_fits_no_guesses_error exObjBare rfl rfl

/-- C8 (counterexample): the `tracks` value emitted by `df_to_sl` is not a
6-row matrix. On a one-row table with the required columns it is a 1×6
matrix — one row per localization, 6 columns — not 6 rows with one column
per localization as claimed. -/
theorem c8_tracks_shape_counterexample :
    ((df_to_sl exDfRequired none).1.tracks).map List.length = some 1 ∧
    ¬ (((df_to_sl exDfRequired none).1.tracks).map List.length = some 6) ∧
    (df_to_sl exDfRequired none).1.tracks =
      some [[some 0, some 1, some 2, some 3, some 4, some 0]] := by
  decide

/-- C8 (amended): for every table containing the required columns after
renaming, `df_to_sl` emits `tracks` as an N×6 matrix: one row per
localization and exactly 6 columns holding (frame, coordinate-1,
coordinate-2, track_id, roi_id, molecule_id) — the molecule id taken from a
`molid` column when present, else from the row index; on a zero-row table it
is the empty 0×6 matrix. (The 6-row orientation of the claim is what h5py
shows after a save/load through the MATLAB v7.3 container, i.e. the
transpose.) -/
theorem c8_tracks_shape_amended (df : DataFrame) (m : Option (List (String × String)))
    (hreq : requiredCols.all (fun c => dfHasCol (applyMapper df m) c) = true) :
    (df_to_sl df m).1.tracks = some (buildTracks (applyMapper df m)) ∧
    (buildTracks (applyMapper df m)).length = dfNRows (applyMapper df m) ∧
    (∀ r ∈ buildTracks (applyMapper df m), r.length = 6) ∧
    (dfNRows (applyMapper df m) = 0 → buildTracks (applyMapper df m) = []) ∧
    (∀ i : ℕ, i < dfNRows (applyMapper df m) →
      (buildTracks (applyMapper df m))[i]? = some
        [(colD (applyMapper df m) "frame").getD i (some 0),
         (colD (applyMapper df m) "row").getD i (some 0),
         (colD (applyMapper df m) "col").getD i (some 0),
         (colD (applyMapper df m) "track_id").getD i (some 0),
         (colD (applyMapper df m) "roinum").getD i (some 0),
         (if dfHasCol (applyMapper df m) "molid" then colD (applyMapper df m) "molid"
          else (List.range (dfNRows (applyMapper df m))).map
            (fun j : ℕ => (some (j : ℚ) : Val))).getD i (some 0)]) := by
  refine ⟨by simp [df_to_sl, hreq], ?_, ?_, ?_, ?_⟩
  · rw [buildTracks]
    simp
  · intro r hr
    rw [buildTracks] at hr
    simp only [List.mem_map] at hr
    obtain ⟨i, _, hir⟩ := hr
    rw [← hir]
    rfl
  · intro h0
    rw [buildTracks, h0]
    rfl
  · intro i hi
    rw [buildTracks]
    simp only [List.getElem?_map, List.getElem?_range, hi, if_pos]
    rfl

/-- C8 (witness): the amended shape on the concrete one-row table. -/
theorem c8_tracks_shape_witness :
    (df_to_sl exDfRequired none).1.tracks = some (buildTracks (applyMapper exDfRequired none)) ∧
    (buildTracks (applyMapper exDfRequired none)).length = dfNRows (applyMapper exDfRequired none) ∧
    (∀ r ∈ buildTracks (applyMapper exDfRequired none), r.length = 6) ∧
    (dfNRows (applyMapper exDfRequired none) = 0 →
      buildTracks (applyMapper exDfRequired none) = []) ∧
    (∀ i : ℕ, i < dfNRows (applyMapper exDfRequired none) →
      (buildTracks (applyMapper exDfRequired none))[i]? = some
        [(colD (applyMapper exDfRequired none) "frame").getD i (some 0),
         (colD (applyMapper exDfRequired none) "row").getD i (some 0),
         (colD (applyMapper exDfRequired none) "col").getD i (some 0),
         (colD (applyMapper exDfRequired none) "track_id").getD i (some 0),
         (colD (applyMapper exDfRequired none) "roinum").getD i (some 0),
         (if dfHasCol (applyMapper exDfRequired none) "molid" then
            colD (applyMapper exDfRequired none) "molid"
          else (List.range (dfNRows (applyMapper exDfRequired none))).map
            (fun j : ℕ => (some (j : ℚ) : Val))).getD i (some 0)]) :=
  c8_tracks_shape_amended exDfRequired none (by decide)

/-- C9: `df_to_sl` never mutates the caller's table. In the embedding the
second component of `df_to_sl` is the caller's table as it stands after the
call — the translated body only reads from it (the rename at
biteen_io.py:328 makes a copy) — and it has the same columns, names and cell
values as the input. -/
theorem c9_no_mutation (df : DataFrame) (m : Option (List (String × String))) :
    ((df_to_sl df m).2).cols = df.cols := rfl

/-- C10: the three converters are deterministic: on equal inputs they return
equal outputs; in particular the synthesized untracked ids of `sl_to_df` are
a function of the input alone. -/
theorem c10_deterministic (o o' : SlObject) (t t' : DataFrame)
    (m m' : Option (List (String × String))) (u u' : DataFrame)
    (fc fc' x1 x1' y1 y1' tc tc' : String) (ps ps' tf tf' : ℚ)
    (h1 : o = o') (h2 : t = t') (h3 : m = m') (h4 : u = u')
    (h5 : fc = fc') (h6 : x1 = x1') (h7 : y1 = y1') (h8 : tc = tc')
    (h9 : ps = ps') (h10 : tf = tf') :
    sl_to_df o = sl_to_df o' ∧ df_to_sl t m = df_to_sl t' m' ∧
    df_to_so u fc x1 y1 tc ps tf = df_to_so u' fc' x1' y1' tc' ps' tf' := by
  subst h1 h2 h3 h4 h5 h6 h7 h8 h9 h10
  exact ⟨rfl, rfl, rfl⟩

/-- C10 (witness): determinism instantiated at concrete inputs. -/
theorem c10_deterministic_witness :
    sl_to_df exObjTracks = sl_to_df exObjTracks ∧
    df_to_sl exDfRequired none = df_to_sl exDfRequired none ∧
    df_to_so exDfPartition "frame" "x" "y" "track_id" 1 1 =
      df_to_so exDfPartition "frame" "x" "y" "track_id" 1 1 :=
  c10_deterministic exObjTracks exObjTracks exDfRequired exDfRequired none none
    exDfPartition exDfPartition "frame" "frame" "x" "x" "y" "y" "track_id" "track_id"
    1 1 1 1 rfl rfl rfl rfl rfl rfl rfl rfl rfl rfl
